import Mathlib

/-
Verification development for the openitool-ipcc firmware pipeline
(src/script.py).  The Python source is shallowly embedded: pure logic
becomes Lean functions, filesystem and network effects become explicit
state values, and raised Python exceptions become an explicit Except
layer around the returned value.
-/

namespace Ipcc

/-- Mirrors the two dataclasses Ok / Error and the union
Result = Union[Ok[T], Error[E]] of src/script.py lines 68-78. -/
inductive Result (T : Type) (E : Type) where
  | ok (value : T)
  | error (error : E)
deriving Repr, DecidableEq

/-- Python exceptions that the embedded code can raise without catching.
An uncaught exception is modelled as the Except.error side of a
computation, distinct from a returned Result.error value. -/
inductive PyExc where
  | fileNotFoundError
  | attributeError
deriving Repr, DecidableEq

/-- Mirrors the Firmwares dataclass of src/script.py lines 81-92.
The two datetime fields are carried as their source strings. -/
structure Firmwares where
  identifier : String
  version : String
  buildid : String
  sha1sum : String
  md5sum : String
  filesize : Nat
  url : String
  releasedate : String
  uploaddate : String
  signed : Bool
deriving Repr, DecidableEq

/-- File contents are modelled as the list of byte values written. -/
abbrev Bytes := List Nat

/-- Model of calculate_hash, src/script.py lines 133-139: a streaming
SHA-1 hex digest of the bytes of the file.  The digest itself is
computed by the external hashlib library; the claims use only equality
and inequality of digests, so it is modelled as a deterministic
injective rendering of the bytes read. -/
def calculate_hash (data : Bytes) : String :=
  toString data

/-- Outcome of iterating response.content.iter_chunked in
src/script.py lines 171-173: either the full body arrives, or an
aiohttp.ClientError or some other exception interrupts the stream
after a prefix has been written. -/
inductive StreamOutcome where
  | complete (data : Bytes)
  | clientErr (written : Bytes) (msg : String)
  | otherErr (written : Bytes) (msg : String)
deriving Repr

/-- Outcome of session.get in src/script.py lines 155-157: the connect
itself may raise aiohttp.ClientError, or a response arrives with a
status, a reason and a body stream. -/
inductive NetOutcome where
  | connError (msg : String)
  | resp (status : Nat) (reason : String) (body : StreamOutcome)
deriving Repr

/-- The destination path computed at src/script.py line 145. -/
def download_file_path (fw : Firmwares) (version_folder : String) : String :=
  version_folder ++ "/" ++ fw.identifier ++ "-" ++ fw.version ++ ".ipsw"

/-- Model of the try/except/finally body of download_file,
src/script.py lines 154-187, entered with no file at file_path.
Returns the outcome (Except layer for uncaught exceptions, Result
layer for returned values) paired with the final contents of
file_path (none when the file does not exist afterwards).

Source correspondence:
* connError: session.get raises aiohttp.ClientError, caught at line
  175; the finally block unlink(missing_ok=True) is a no-op.
* non-200 status: line 158 returns a Failed-to-download Error; the
  finally block still runs but no file was created.
* clientErr / otherErr during streaming: caught at lines 175 / 178;
  the finally block deletes the partial file.
* complete: the body is fully written and the with-block closes the
  file.  The finally block at lines 181-182 runs on this path as
  well, deleting the fully downloaded file; calculate_hash at line
  184 then opens the now missing file and raises FileNotFoundError,
  which nothing in download_file catches. -/
def download_file_body (fw : Firmwares) (net : NetOutcome) :
    Except PyExc (Result String String) × Option Bytes :=
  match net with
  | .connError msg => (.ok (.error ("Network error: " ++ msg)), none)
  | .resp status reason body =>
    if status ≠ 200 then
      (.ok (.error ("Failed to download " ++ fw.identifier ++ ": " ++
        toString status ++ " " ++ reason)), none)
    else
      match body with
      | .clientErr _ msg => (.ok (.error ("Network error: " ++ msg)), none)
      | .otherErr _ msg => (.ok (.error ("Error at downloading: " ++ msg)), none)
      | .complete _ => (.error .fileNotFoundError, none)

/-- Model of download_file, src/script.py lines 142-187.  The state of
the single file it touches is passed in as existing (the contents of
file_path before the call, none when absent) and returned alongside
the outcome.  The net argument is the behaviour the network client
would exhibit if a request were issued; the cached-hit branch at
lines 147-149 returns before any request, so its result is the same
for every net. -/
def download_file (fw : Firmwares) (version_folder : String)
    (existing : Option Bytes) (net : NetOutcome) :
    Except PyExc (Result String String) × Option Bytes :=
  match existing with
  | some data =>
    if calculate_hash data = fw.sha1sum then
      (.ok (.ok (download_file_path fw version_folder)), some data)
    else
      download_file_body fw net
  | none => download_file_body fw net

/-- The JSON values handled by the json stdlib calls of the source.
Integer numbers are carried exactly; other numeric literals are
carried as their raw text, since no claim computes with them. -/
inductive Json where
  | null
  | bool (b : Bool)
  | num (n : Int)
  | numRaw (raw : String)
  | str (s : String)
  | arr (a : List Json)
  | obj (o : List (String × Json))
deriving Repr

/-- Python dict.get on the insertion-ordered pair list that models a
dict: the value stored under k, or none. -/
def dictGet (o : List (String × Json)) (k : String) : Option Json :=
  match o with
  | [] => none
  | (k1, v) :: rest => if k1 = k then some v else dictGet rest k

/-- Python dict item assignment on the pair-list model: replaces the
value in place when the key is present (keeping its position), else
appends the new pair at the end, as CPython dicts do. -/
def dictSet (o : List (String × Json)) (k : String) (v : Json) :
    List (String × Json) :=
  match o with
  | [] => [(k, v)]
  | (k1, v1) :: rest =>
    if k1 = k then (k1, v) :: rest else (k1, v1) :: dictSet rest k v

/-- Whitespace skipping as json.loads does between tokens. -/
def skipWs : List Char → List Char
  | [] => []
  | c :: cs =>
    if c = ' ' ∨ c = '\n' ∨ c = '\t' ∨ c = '\r' then skipWs cs else c :: cs

/-- Reads the characters of a JSON string literal after its opening
quote, up to the closing quote, decoding the basic escapes. -/
def parseStrChars : List Char → Option (List Char × List Char)
  | [] => none
  | '"' :: rest => some ([], rest)
  | '\\' :: e :: rest =>
    match parseStrChars rest with
    | some (acc, rem) =>
      let c := if e = 'n' then '\n' else if e = 't' then '\t'
        else if e = 'r' then '\r' else e
      some (c :: acc, rem)
    | none => none
  | c :: rest =>
    match parseStrChars rest with
    | some (acc, rem) => some (c :: acc, rem)
    | none => none

/-- Splits off a leading run of decimal digits. -/
def takeDigits : List Char → List Char × List Char
  | [] => ([], [])
  | c :: cs =>
    if c.isDigit then
      let p := takeDigits cs
      (c :: p.1, p.2)
    else ([], c :: cs)

/-- Numeric value of a digit run. -/
def digitsToNat (ds : List Char) : Nat :=
  ds.foldl (fun a c => a * 10 + (c.toNat - 48)) 0

/-- Reads a JSON number (integer, or integer-dot-fraction kept as raw
text) from the input; neg records a leading minus sign. -/
def parseNum (neg : Bool) (cs : List Char) : Option (Json × List Char) :=
  let p := takeDigits cs
  if p.1 = [] then none
  else
    match p.2 with
    | '.' :: rest2 =>
      let q := takeDigits rest2
      if q.1 = [] then none
      else
        some (.numRaw (String.mk ((if neg then ['-'] else []) ++ p.1 ++
          '.' :: q.1)), q.2)
    | _ =>
      let n : Int := Int.ofNat (digitsToNat p.1)
      some (.num (if neg then -n else n), p.2)

mutual

/-- Fuel-indexed recursive-descent reader for one JSON value, the
model of the grammar accepted by json.loads in src/script.py line
195.  Returns the value and the unconsumed input. -/
def parseValue : Nat → List Char → Option (Json × List Char)
  | 0, _ => none
  | fuel + 1, input =>
    match skipWs input with
    | 'n' :: 'u' :: 'l' :: 'l' :: rest => some (.null, rest)
    | 't' :: 'r' :: 'u' :: 'e' :: rest => some (.bool true, rest)
    | 'f' :: 'a' :: 'l' :: 's' :: 'e' :: rest => some (.bool false, rest)
    | '"' :: rest =>
      match parseStrChars rest with
      | some (cs, rem) => some (.str (String.mk cs), rem)
      | none => none
    | '[' :: rest =>
      match skipWs rest with
      | ']' :: rem => some (.arr [], rem)
      | other =>
        match parseArrTail fuel other with
        | some (vs, rem) => some (.arr vs, rem)
        | none => none
    | '\x7b' :: rest =>
      match skipWs rest with
      | '\x7d' :: rem => some (.obj [], rem)
      | other =>
        match parseObjTail fuel other with
        | some (kvs, rem) =>
          some (.obj (kvs.foldl (fun acc p => dictSet acc p.1 p.2) []), rem)
        | none => none
    | '-' :: rest => parseNum true rest
    | c :: rest => if c.isDigit then parseNum false (c :: rest) else none
    | [] => none

/-- Reads the comma-separated items of a non-empty JSON array up to
the closing bracket. -/
def parseArrTail : Nat → List Char → Option (List Json × List Char)
  | 0, _ => none
  | fuel + 1, input =>
    match parseValue fuel input with
    | none => none
    | some (v, rest) =>
      match skipWs rest with
      | ',' :: rest2 =>
        match parseArrTail fuel rest2 with
        | some (vs, rem) => some (v :: vs, rem)
        | none => none
      | ']' :: rem => some ([v], rem)
      | _ => none

/-- Reads the comma-separated key-value pairs of a non-empty JSON
object up to the closing brace. -/
def parseObjTail : Nat → List Char → Option (List (String × Json) × List Char)
  | 0, _ => none
  | fuel + 1, input =>
    match skipWs input with
    | '"' :: rest =>
      match parseStrChars rest with
      | none => none
      | some (kcs, rest1) =>
        match skipWs rest1 with
        | ':' :: rest2 =>
          match parseValue fuel rest2 with
          | none => none
          | some (v, rest3) =>
            match skipWs rest3 with
            | ',' :: rest4 =>
              match parseObjTail fuel rest4 with
              | some (kvs, rem) => some ((String.mk kcs, v) :: kvs, rem)
              | none => none
            | '\x7d' :: rem => some ([(String.mk kcs, v)], rem)
            | _ => none
        | _ => none
    | _ => none

end

/-- Model of json.loads as called at src/script.py line 195: parse one
JSON document and require only whitespace after it; none models a
raised json.JSONDecodeError. -/
def pyJsonLoads (s : String) : Option Json :=
  match parseValue (2 * s.length + 2) s.toList with
  | some (v, rest) => if skipWs rest = [] then some v else none
  | none => none

mutual

/-- Model of json.dumps as called at src/script.py line 198, up to
layout: the indent-4 pretty printing and string escaping of the
stdlib are abstracted, since every claim compares the JSON value
written, never its byte layout. -/
def jsonDumps : Json → String
  | .null => "null"
  | .bool true => "true"
  | .bool false => "false"
  | .num n => toString n
  | .numRaw raw => raw
  | .str s => "\"" ++ s ++ "\""
  | .arr a => "[" ++ jsonDumpsList a ++ "]"
  | .obj o => "\x7b" ++ jsonDumpsObj o ++ "\x7d"

/-- Comma-joined rendering of array members. -/
def jsonDumpsList : List Json → String
  | [] => ""
  | [v] => jsonDumps v
  | v :: vs => jsonDumps v ++ ", " ++ jsonDumpsList vs

/-- Comma-joined rendering of object members. -/
def jsonDumpsObj : List (String × Json) → String
  | [] => ""
  | [(k, v)] => "\"" ++ k ++ "\": " ++ jsonDumps v
  | (k, v) :: kvs => "\"" ++ k ++ "\": " ++ jsonDumps v ++ ", " ++ jsonDumpsObj kvs

end

/-- The contents of one file: either the file is missing, or it holds
the given text. -/
inductive FileState where
  | missing
  | contents (text : String)
deriving Repr

/-- The read-modify-write core of put_metadata, src/script.py lines
196-197: store the callback of the current value under key, then
stamp updated_at. -/
def put_metadata_update (o : List (String × Json)) (key : String)
    (callback : Option Json → Json) (now : String) : List (String × Json) :=
  dictSet (dictSet o key (callback (dictGet o key))) "updated_at" (Json.str now)

/-- Model of put_metadata, src/script.py lines 190-201, acting on the
state of the file at metadata_path; now stands for the
datetime.now(UTC).isoformat() timestamp.

Source correspondence:
* missing file: read_text raises FileNotFoundError, which the
  function does not catch (only json.JSONDecodeError is).
* empty file: read_text gives the empty string, so the expression
  read_text or a brace pair parses as the empty object.
* unparsable text: json.loads raises json.JSONDecodeError, caught at
  line 199 and returned as an Invalid JSON Error; nothing is written.
* a document whose top level is not an object: metadata.get at line
  196 raises AttributeError, uncaught.
* an object: the updated object is written back. -/
def put_metadata (fs : FileState) (key : String)
    (callback : Option Json → Json) (now : String) :
    Except PyExc (Result Unit String × FileState) :=
  match fs with
  | .missing => .error .fileNotFoundError
  | .contents text =>
    let raw := if text = "" then "\x7b\x7d" else text
    match pyJsonLoads raw with
    | none => .ok (.error "Invalid JSON", .contents text)
    | some (.obj o) =>
      .ok (.ok (), .contents
        (jsonDumps (.obj (put_metadata_update o key callback now))))
    | some _ => .error .attributeError

/-- The part of a zipfile.ZipInfo entry that
extract_the_biggest_dmg reads: its name and its declared
uncompressed size. -/
structure ZipEntry where
  filename : String
  file_size : Nat
deriving Repr, DecidableEq

/-- Model of the selection at src/script.py line 287:
max of zip_file.infolist() keyed by file_size.  The Python builtin
max scans left to right and replaces the current best only on a
strictly greater key, so the first of several equal maxima is kept;
on an empty iterable it raises ValueError, modelled as none. -/
def extract_the_biggest_dmg_choice (entries : List ZipEntry) : Option ZipEntry :=
  match entries with
  | [] => none
  | x :: xs =>
    some (xs.foldl (fun acc y => if acc.file_size < y.file_size then y else acc) x)

/-- Whether the needle occurs at the head of the haystack. -/
def subAt : List Char → List Char → Bool
  | [], _ => true
  | _ :: _, [] => false
  | a :: as, b :: bs => a = b && subAt as bs

/-- Whether the needle occurs anywhere in the haystack. -/
def hasSub (needle : List Char) : List Char → Bool
  | [] => subAt needle []
  | b :: bs => subAt needle (b :: bs) || hasSub needle bs

/-- Model of the Python expression needle in haystack on strings, as
used for the ledger guard at src/script.py line 427: a substring
test. -/
def pyIn (needle haystack : String) : Bool :=
  hasSub needle.toList haystack.toList

/-- The externally visible steps of the per-firmware run closure of
bake_ipcc, src/script.py lines 413-493, in execution order. -/
inductive Stage where
  | mkdirBase
  | mkdirVersion
  | touchLedger
  | download
  | extract
  | relocate
  | package
  | writeBundles
  | writeLedger
deriving Repr, DecidableEq

/-- Outcomes of the effectful stages a run would invoke, supplied as
oracles: what download_file, extract_the_biggest_dmg and
tar_and_hash_bundles would return if called.  delete_non_bundles
(src/script.py lines 370-377) always returns Ok, so it needs no
oracle. -/
structure StageOutcomes where
  dl : Result String String
  ex : Result Unit String
  tarred : Result (List Json) String
deriving Repr

/-- Model of the run closure of bake_ipcc, src/script.py lines
413-493, as the sequence of stages it executes for one firmware.
ledgerText is the contents of the metadata.json read at line 427
(the file was touched just before, so the read cannot fail).

Source correspondence, in order: mkdir of the identifier directory
(line 419), mkdir of the version directory (line 422), touch of
metadata.json (line 425), then the resumability guard at line 427:
when firmware.version occurs as a substring of the ledger text, the
closure returns at line 428 before any download, extraction or file
write.  Otherwise download_file runs; on its Error the closure
returns; then extract_the_biggest_dmg; on its Error the closure
returns; then bundles_glob plus delete_non_bundles (relocate), then
tar_and_hash_bundles (package); on its Error the closure returns
after the rmtree loop; finally put_metadata on bundles.json and on
metadata.json. -/
def bake_run_stages (fw : Firmwares) (ledgerText : String)
    (oc : StageOutcomes) : List Stage :=
  [Stage.mkdirBase, Stage.mkdirVersion, Stage.touchLedger] ++
    (if pyIn fw.version ledgerText then []
     else
       Stage.download ::
         match oc.dl with
         | .error _ => []
         | .ok _ =>
           Stage.extract ::
             match oc.ex with
             | .error _ => []
             | .ok _ =>
               Stage.relocate :: Stage.package ::
                 match oc.tarred with
                 | .error _ => []
                 | .ok _ => [Stage.writeBundles, Stage.writeLedger])

/-- One admitted workflow: the device identifier and firmware version
of the run closure holding a semaphore slot. -/
structure TaskId where
  device : String
  version : String
deriving Repr, DecidableEq

/-- The capacity of the shared semaphore created at src/script.py
line 520: asyncio.Semaphore(5). -/
def semaphoreCapacity : Nat := 5

/-- The scheduler state: the semaphore counter and the workflows
currently inside their async-with-semaphore block (src/script.py
line 414).  A single counter is shared by every device, since main
creates one semaphore and passes it to every fetch_and_bake. -/
structure SchedState where
  counter : Nat
  active : List TaskId
deriving Repr

/-- The initial scheduler state: a fresh semaphore, nothing active. -/
def schedInit : SchedState :=
  ⟨semaphoreCapacity, []⟩

/-- The transitions of the scheduler, modelling asyncio.Semaphore:
a workflow enters its with-block only when the counter is positive,
decrementing it; leaving the block increments the counter.  Any
admitted task, for any device, may finish in any order. -/
inductive SchedStep : SchedState → SchedState → Prop
  | acquire (s : SchedState) (t : TaskId) (h : 0 < s.counter) :
      SchedStep s ⟨s.counter - 1, t :: s.active⟩
  | release (s : SchedState) (t : TaskId) (h : t ∈ s.active) :
      SchedStep s ⟨s.counter + 1, s.active.erase t⟩

/-- The states the scheduler can reach from the initial state. -/
inductive SchedReachable : SchedState → Prop
  | init : SchedReachable schedInit
  | step {s t : SchedState} :
      SchedReachable s → SchedStep s t → SchedReachable t

/-- A concrete firmware record whose expected digest is the digest of
the byte sequence [1, 2, 3]. -/
def fwGood : Firmwares :=
  { identifier := "iPhone8,1", version := "9.0", buildid := "13A344",
    sha1sum := calculate_hash [1, 2, 3], md5sum := "m1", filesize := 3,
    url := "https://updates.example/a.ipsw", releasedate := "2015-09-16",
    uploaddate := "2015-09-16", signed := true }

/-- A concrete firmware record whose expected digest matches no byte
sequence used with it. -/
def fwBad : Firmwares :=
  { identifier := "iPhone7,2", version := "8.3", buildid := "12F70",
    sha1sum := "0badc0de", md5sum := "m2", filesize := 2,
    url := "https://updates.example/b.ipsw", releasedate := "2015-04-08",
    uploaddate := "2015-04-08", signed := false }

/-- A concrete firmware record whose expected digest is the digest of
the byte sequence [9, 9, 9]. -/
def fwOther : Firmwares :=
  { identifier := "iPhone9,1", version := "10.2", buildid := "14C92",
    sha1sum := calculate_hash [9, 9, 9], md5sum := "m3", filesize := 3,
    url := "https://updates.example/c.ipsw", releasedate := "2016-12-12",
    uploaddate := "2016-12-12", signed := true }

/-- Concrete zip entries with declared sizes 10, 4096 and 512. -/
def demoEntries : List ZipEntry :=
  [⟨"small.dmg", 10⟩, ⟨"big.dmg", 4096⟩, ⟨"mid.dmg", 512⟩]

/-- The 4096-byte entry of demoEntries. -/
def demoBig : ZipEntry :=
  ⟨"big.dmg", 4096⟩

/-- Stage oracles in which every stage would succeed. -/
def ocAll : StageOutcomes :=
  ⟨Result.ok "path", Result.ok (), Result.ok []⟩

/-- A concrete callback for put_metadata evaluations. -/
def demoCb : Option Json → Json :=
  fun _ => Json.null

/-- Two admitted workflows for two different devices. -/
def taskA : TaskId := ⟨"iPhone8,1", "9.0"⟩

/-- Second demo workflow, for another device. -/
def taskB : TaskId := ⟨"iPhone7,2", "8.3"⟩

/-- A scheduler state with two admitted workflows of distinct devices. -/
def schedDemo : SchedState :=
  ⟨3, [taskB, taskA]⟩

/-- Reading a key not touched by dictSet is unchanged. -/
theorem dictGet_dictSet_ne (o : List (String × Json)) (k1 k2 : String)
    (v : Json) (h : ¬ k2 = k1) :
    dictGet (dictSet o k1 v) k2 = dictGet o k2 := by
  induction o with
  | nil =>
    simp only [dictSet, dictGet]
    rw [if_neg fun hh => h hh.symm]
  | cons p rest ih =>
    obtain ⟨pk, pv⟩ := p
    by_cases hp : pk = k1
    · subst hp
      simp only [dictSet, if_pos rfl, dictGet]
      rw [if_neg fun hh => h hh.symm, if_neg fun hh => h hh.symm]
    · simp only [dictSet, if_neg hp, dictGet]
      by_cases hq : pk = k2
      · rw [if_pos hq, if_pos hq]
      · rw [if_neg hq, if_neg hq]
        exact ih

/-- The left fold that models the Python max builtin returns an
element of the scanned list that no element exceeds in key. -/
theorem foldl_max_spec (xs : List ZipEntry) (x : ZipEntry) :
    (xs.foldl (fun acc y => if acc.file_size < y.file_size then y else acc) x)
        ∈ x :: xs ∧
    ∀ z ∈ x :: xs, z.file_size ≤
      (xs.foldl (fun acc y => if acc.file_size < y.file_size then y else acc)
        x).file_size := by
  induction xs generalizing x with
  | nil =>
    refine ⟨List.mem_cons_self _ _, ?_⟩
    intro z hz
    rw [List.mem_singleton] at hz
    subst hz
    exact le_refl _
  | cons y ys ih =>
    simp only [List.foldl_cons]
    obtain ⟨hmem, hle⟩ := ih (if x.file_size < y.file_size then y else x)
    have hm : (if x.file_size < y.file_size then y else x) = y ∨
        (if x.file_size < y.file_size then y else x) = x := by
      by_cases hxy : x.file_size < y.file_size
      · exact Or.inl (if_pos hxy)
      · exact Or.inr (if_neg hxy)
    have hx : x.file_size ≤
        (if x.file_size < y.file_size then y else x).file_size := by
      by_cases hxy : x.file_size < y.file_size
      · rw [if_pos hxy]; exact le_of_lt hxy
      · rw [if_neg hxy]
    have hy : y.file_size ≤
        (if x.file_size < y.file_size then y else x).file_size := by
      by_cases hxy : x.file_size < y.file_size
      · rw [if_pos hxy]
      · rw [if_neg hxy]; exact le_of_not_lt hxy
    constructor
    · rcases List.mem_cons.mp hmem with h | h
      · rcases hm with h2 | h2
        · rw [h, h2]
          exact List.mem_cons_of_mem _ (List.mem_cons_self _ _)
        · rw [h, h2]
          exact List.mem_cons_self _ _
      · exact List.mem_cons_of_mem _ (List.mem_cons_of_mem _ h)
    · intro z hz
      rcases List.mem_cons.mp hz with h | h
      · subst h
        exact le_trans hx (hle _ (List.mem_cons_self _ _))
      · rcases List.mem_cons.mp h with h2 | h2
        · subst h2
          exact le_trans hy (hle _ (List.mem_cons_self _ _))
        · exact hle _ (List.mem_cons_of_mem _ h2)

/-- The semaphore counter plus the number of active workflows is
constant along every reachable scheduler state. -/
theorem sched_counter_invariant (s : SchedState) (h : SchedReachable s) :
    s.counter + s.active.length = semaphoreCapacity := by
  induction h with
  | init => rfl
  | step hr hs ih =>
    rename_i s1 s2
    cases hs with
    | acquire t hpos =>
      show s1.counter - 1 + (t :: s1.active).length = semaphoreCapacity
      simp only [List.length_cons]
      omega
    | release t hmem =>
      have hlen : (s1.active.erase t).length = s1.active.length - 1 :=
        List.length_erase_of_mem hmem
      have hpos : 0 < s1.active.length := List.length_pos_of_mem hmem
      show s1.counter + 1 + (s1.active.erase t).length = semaphoreCapacity
      rw [hlen]
      omega

/-- C1: the claim states that a firmware whose HTTP response is 200
and whose body streams to disk without a network error makes
download_file return Ok with the destination path and leaves the
file on disk, deletion happening only on error paths.  The code
instead runs the unlink of lines 181-182 in a finally block, so the
fully downloaded file is deleted on the success path as well, and
the digest recomputation at line 184 then raises an uncaught
FileNotFoundError.  This theorem evaluates the embedding at a
failing input: the streamed bytes [1, 2, 3] have exactly the
expected digest, the response is 200 and the body completes, yet
the call raises FileNotFoundError and the file is gone. -/
theorem download_file_success_path_deletes :
    calculate_hash [1, 2, 3] = fwGood.sha1sum ∧
    download_file fwGood "v" none
        (NetOutcome.resp 200 "OK" (StreamOutcome.complete [1, 2, 3])) =
      (Except.error PyExc.fileNotFoundError, none) :=
  ⟨rfl, rfl⟩

/-- C2: the claim states that every pipeline stage returns an Ok or
Error Result for every input and never raises.  The code violates
this: download_file raises FileNotFoundError on every fresh
completed download (the finally block of lines 181-182 deletes the
file that line 184 then reopens), and put_metadata raises
FileNotFoundError on a missing file, since line 199 catches only
json.JSONDecodeError.  This theorem evaluates both stages at such
inputs and shows an uncaught exception instead of a Result. -/
theorem pipeline_stage_raises :
    download_file fwOther "out" none
        (NetOutcome.resp 200 "OK" (StreamOutcome.complete [9, 9, 9])) =
      (Except.error PyExc.fileNotFoundError, none) ∧
    put_metadata FileState.missing "bundles" (fun _ => Json.arr []) "T2" =
      Except.error PyExc.fileNotFoundError :=
  ⟨rfl, rfl⟩

/-- C3: the claim states that a completed download whose recomputed
digest differs from the expected sha1sum makes download_file return
a hash-mismatch Error rather than Ok.  In the code the hash-mismatch
return at line 185 is unreachable: the finally block of lines
181-182 has already deleted the completed file, so the digest
recomputation at line 184 raises an uncaught FileNotFoundError
instead.  This theorem evaluates the embedding at a failing input:
bytes [4, 5] whose digest differs from the expected one. -/
theorem download_hash_mismatch_raises :
    (calculate_hash [4, 5] == fwBad.sha1sum) = false ∧
    download_file fwBad "v" none
        (NetOutcome.resp 200 "OK" (StreamOutcome.complete [4, 5])) =
      (Except.error PyExc.fileNotFoundError, none) :=
  ⟨by decide, rfl⟩

/-- C4 counterexample: the claim states that put_metadata treats a
missing file like an empty one, returning Ok.  On a missing file the
read_text call of line 195 raises FileNotFoundError, which line 199
does not catch, so the call raises instead of returning Ok. -/
theorem put_metadata_missing_raises :
    put_metadata FileState.missing "fw" (fun _ => Json.null) "T3" =
      Except.error PyExc.fileNotFoundError :=
  rfl

/-- C4 amended: for every key and callback, put_metadata treats an
empty file as the empty JSON object: it returns Ok, applies the
callback to none, and writes back an object holding the callback
result under the key plus an updated_at timestamp.  A missing file
is not treated the same way: the call raises an uncaught
FileNotFoundError (callers pre-create the file with touch). -/
theorem put_metadata_empty_file (key now : String) (cb : Option Json → Json) :
    put_metadata (FileState.contents "") key cb now =
      Except.ok (Result.ok (), FileState.contents
        (jsonDumps (Json.obj
          (dictSet [(key, cb none)] "updated_at" (Json.str now))))) ∧
    put_metadata FileState.missing key cb now =
      Except.error PyExc.fileNotFoundError :=
  ⟨rfl, rfl⟩

/-- C5: if the file exists, is non-empty, and its contents are not
valid JSON, put_metadata returns an Error and performs no write: the
file contents are exactly the same after the call as before it. -/
theorem put_metadata_invalid_json_untouched (text key now : String)
    (cb : Option Json → Json) (hne : ¬ text = "")
    (hbad : pyJsonLoads text = none) :
    put_metadata (FileState.contents text) key cb now =
      Except.ok (Result.error "Invalid JSON", FileState.contents text) := by
  simp only [put_metadata, if_neg hne, hbad]

/-- C5 witness: a file holding a lone opening brace is non-empty and
unparsable, and the call leaves it untouched behind an Error. -/
theorem put_metadata_invalid_json_untouched_witness :
    put_metadata (FileState.contents "\x7b") "fw" demoCb "T4" =
      Except.ok (Result.error "Invalid JSON", FileState.contents "\x7b") :=
  put_metadata_invalid_json_untouched "\x7b" "fw" "T4" demoCb (by decide) rfl

/-- C6: when the destination file already exists, download_file
returns Ok with its path at once if the digest of the existing bytes
equals the expected sha1sum — for every network behaviour, showing no
request is issued — and otherwise deletes the file and proceeds
exactly as a fresh download would. -/
theorem download_file_existing_file (fw : Firmwares) (folder : String)
    (data : Bytes) (net : NetOutcome) :
    (calculate_hash data = fw.sha1sum →
      download_file fw folder (some data) net =
        (Except.ok (Result.ok (download_file_path fw folder)), some data)) ∧
    (¬ calculate_hash data = fw.sha1sum →
      download_file fw folder (some data) net =
        download_file fw folder none net) := by
  constructor
  · intro h
    simp [download_file, h]
  · intro h
    simp [download_file, h]

/-- C6 witness: with the network down, a cached file with the right
digest is returned as is, and a cached file with a wrong digest
behaves exactly like a fresh download. -/
theorem download_file_existing_file_witness :
    download_file fwGood "v" (some [1, 2, 3]) (NetOutcome.connError "down") =
      (Except.ok (Result.ok (download_file_path fwGood "v")), some [1, 2, 3]) ∧
    download_file fwBad "v" (some [4, 5]) (NetOutcome.connError "down") =
      download_file fwBad "v" none (NetOutcome.connError "down") :=
  ⟨(download_file_existing_file fwGood "v" [1, 2, 3]
      (NetOutcome.connError "down")).1 rfl,
   (download_file_existing_file fwBad "v" [4, 5]
      (NetOutcome.connError "down")).2 (by decide)⟩

/-- C7: for every non-empty zip container, the selection of
extract_the_biggest_dmg is an entry of the container whose declared
size no other entry exceeds. -/
theorem extract_biggest_selection (l : List ZipEntry) (e : ZipEntry)
    (h : extract_the_biggest_dmg_choice l = some e) :
    e ∈ l ∧ ∀ e2 ∈ l, e2.file_size ≤ e.file_size := by
  match l with
  | [] => simp [extract_the_biggest_dmg_choice] at h
  | x :: xs =>
    simp only [extract_the_biggest_dmg_choice, Option.some.injEq] at h
    subst h
    exact foldl_max_spec xs x

/-- C7 witness: among entries of sizes 10, 4096 and 512, the
4096-byte entry is selected and is a member of the container. -/
theorem extract_biggest_selection_witness :
    extract_the_biggest_dmg_choice demoEntries = some demoBig ∧
    demoBig ∈ demoEntries :=
  ⟨rfl, (extract_biggest_selection demoEntries demoBig rfl).1⟩

/-- C8: if the firmware version occurs as a substring of the ledger
file contents, the per-firmware run executes only the directory
setup steps that precede the guard and returns without downloading,
extracting or writing; if it does not occur, the run proceeds to the
download stage. -/
theorem bake_version_short_circuit (fw : Firmwares) (ledgerText : String)
    (oc : StageOutcomes) :
    (pyIn fw.version ledgerText = true →
      bake_run_stages fw ledgerText oc =
        [Stage.mkdirBase, Stage.mkdirVersion, Stage.touchLedger]) ∧
    (pyIn fw.version ledgerText = false →
      Stage.download ∈ bake_run_stages fw ledgerText oc) := by
  constructor
  · intro h
    simp [bake_run_stages, h]
  · intro h
    simp [bake_run_stages, h]

/-- C8 witness: a ledger containing the version 9.0 short-circuits
the run after directory setup; an empty ledger leads to the
download stage. -/
theorem bake_version_short_circuit_witness :
    bake_run_stages fwGood "processed 9.0 fine" ocAll =
      [Stage.mkdirBase, Stage.mkdirVersion, Stage.touchLedger] ∧
    Stage.download ∈ bake_run_stages fwGood "" ocAll :=
  ⟨(bake_version_short_circuit fwGood "processed 9.0 fine" ocAll).1 (by decide),
   (bake_version_short_circuit fwGood "" ocAll).2 (by decide)⟩

/-- C9: in every state the scheduler can reach, at most 5 workflows
are active at once; the active list mixes workflows of all devices,
since the single semaphore of the source is shared across devices,
so the bound is global, not per device. -/
theorem scheduler_concurrency_bound (s : SchedState)
    (h : SchedReachable s) : s.active.length ≤ 5 := by
  have hinv := sched_counter_invariant s h
  have hcap : semaphoreCapacity = 5 := rfl
  omega

/-- C9 witness: the state with two admitted workflows of two
different devices is reachable and within the bound. -/
theorem scheduler_concurrency_bound_witness :
    SchedReachable schedDemo ∧ schedDemo.active.length ≤ 5 := by
  have hr : SchedReachable schedDemo :=
    SchedReachable.step
      (SchedReachable.step SchedReachable.init
        (SchedStep.acquire schedInit taskA (by decide)))
      (SchedStep.acquire ⟨4, [taskA]⟩ taskB (by decide))
  exact ⟨hr, scheduler_concurrency_bound schedDemo hr⟩

/-- C10: on every successful call over a pre-existing valid JSON
object, put_metadata writes back exactly the object produced by the
read-modify-write core, and that object agrees with the old one on
every key other than the supplied key and updated_at. -/
theorem put_metadata_frame (text key now k : String)
    (o : List (String × Json)) (cb : Option Json → Json)
    (hparse : pyJsonLoads text = some (Json.obj o))
    (hk1 : ¬ k = key) (hk2 : ¬ k = "updated_at") :
    put_metadata (FileState.contents text) key cb now =
      Except.ok (Result.ok (), FileState.contents
        (jsonDumps (Json.obj (put_metadata_update o key cb now)))) ∧
    dictGet (put_metadata_update o key cb now) k = dictGet o k := by
  constructor
  · have hne : ¬ text = "" := by
      intro h
      rw [h, show pyJsonLoads "" = none from rfl] at hparse
      exact Option.noConfusion hparse
    simp only [put_metadata, if_neg hne, hparse]
  · unfold put_metadata_update
    rw [dictGet_dictSet_ne _ _ _ _ hk2, dictGet_dictSet_ne _ _ _ _ hk1]

/-- C10 witness: updating key fw of an object holding key a leaves
the value under a unchanged. -/
theorem put_metadata_frame_witness :
    put_metadata (FileState.contents "\x7b\"a\": 1\x7d") "fw" demoCb "T5" =
      Except.ok (Result.ok (), FileState.contents
        (jsonDumps (Json.obj
          (put_metadata_update [("a", Json.num 1)] "fw" demoCb "T5")))) ∧
    dictGet (put_metadata_update [("a", Json.num 1)] "fw" demoCb "T5") "a" =
      dictGet [("a", Json.num 1)] "a" :=
  put_metadata_frame "\x7b\"a\": 1\x7d" "fw" "T5" "a" [("a", Json.num 1)]
    demoCb rfl (by decide) (by decide)

end Ipcc
